import Mathlib

/-!
Verification development for the ghost-app repository: a shallow embedding of
its cryptographic core (alias derivation, session-key derivation, passphrase
vault, session cipher, recovery mnemonic) and of the relay's
`accept_handshake` stored procedure, together with theorems settling the
specification's claims.

Byte strings are embedded as `List Nat` (each element a byte value, masked
modulo 256 where the source relies on `Uint8Array` coercion); JavaScript
strings are embedded as Lean `String` / `List Char`.
-/

set_option maxRecDepth 100000

namespace Ghost

/-! ## SHA-256 (the `js-sha256` primitive used throughout the source)

A direct executable implementation of FIPS 180-4 SHA-256 over byte lists,
standing in for the `sha256` function of the `js-sha256` package (which
UTF-8-encodes string inputs and hashes byte arrays as-is). -/

/-- The word modulus of SHA-256, 2^32. -/
def M32 : Nat := 4294967296

/-- Right rotation of a 32-bit word by `k` bits (for `x < 2^32`). -/
def rotr (k x : Nat) : Nat := x / 2 ^ k + x % 2 ^ k * 2 ^ (32 - k)

/-- Bitwise complement of a 32-bit word. -/
def not32 (x : Nat) : Nat := Nat.xor x 4294967295

def ch (x y z : Nat) : Nat := Nat.xor (Nat.land x y) (Nat.land (not32 x) z)

def maj (x y z : Nat) : Nat :=
  Nat.xor (Nat.xor (Nat.land x y) (Nat.land x z)) (Nat.land y z)

def bigSigma0 (x : Nat) : Nat := Nat.xor (Nat.xor (rotr 2 x) (rotr 13 x)) (rotr 22 x)
def bigSigma1 (x : Nat) : Nat := Nat.xor (Nat.xor (rotr 6 x) (rotr 11 x)) (rotr 25 x)
def smallSigma0 (x : Nat) : Nat := Nat.xor (Nat.xor (rotr 7 x) (rotr 18 x)) (x / 2 ^ 3)
def smallSigma1 (x : Nat) : Nat := Nat.xor (Nat.xor (rotr 17 x) (rotr 19 x)) (x / 2 ^ 10)

/-- The eight 32-bit words of a SHA-256 chaining state. -/
structure Hash8 where
  a : Nat
  b : Nat
  c : Nat
  d : Nat
  e : Nat
  f : Nat
  g : Nat
  h : Nat
deriving DecidableEq

/-- SHA-256 initial hash value (FIPS 180-4, written in decimal). -/
def initH : Hash8 :=
  ⟨1779033703, 3144134277, 1013904242, 2773480762,
   1359893119, 2600822924, 528734635, 1541459225⟩

/-- SHA-256 round constants (FIPS 180-4, written in decimal). -/
def K256 : List Nat :=
  [1116352408, 1899447441, 3049323471, 3921009573, 961987163,
   1508970993, 2453635748, 2870763221, 3624381080, 310598401,
   607225278, 1426881987, 1925078388, 2162078206, 2614888103,
   3248222580, 3835390401, 4022224774, 264347078, 604807628,
   770255983, 1249150122, 1555081692, 1996064986, 2554220882,
   2821834349, 2952996808, 3210313671, 3336571891, 3584528711,
   113926993, 338241895, 666307205, 773529912, 1294757372,
   1396182291, 1695183700, 1986661051, 2177026350, 2456956037,
   2730485921, 2820302411, 3259730800, 3345764771, 3516065817,
   3600352804, 4094571909, 275423344, 430227734, 506948616,
   659060556, 883997877, 958139571, 1322822218, 1537002063,
   1747873779, 1955562222, 2024104815, 2227730452, 2361852424,
   2428436474, 2756734187, 3204031479, 3329325298]

/-- Big-endian 32-bit word from four bytes of a block. -/
def wordAt (block : List Nat) (i : Nat) : Nat :=
  block.getD (4 * i) 0 * 2 ^ 24 + block.getD (4 * i + 1) 0 * 2 ^ 16 +
  block.getD (4 * i + 2) 0 * 2 ^ 8 + block.getD (4 * i + 3) 0

/-- The 64-word message schedule of one 512-bit block. -/
def schedule (block : List Nat) : List Nat :=
  let w16 := (List.range 16).map (wordAt block)
  (List.range 48).foldl
    (fun w _ =>
      let n := w.length
      w ++ [(smallSigma1 (w.getD (n - 2) 0) + w.getD (n - 7) 0 +
             smallSigma0 (w.getD (n - 15) 0) + w.getD (n - 16) 0) % M32])
    w16

/-- One round of the SHA-256 compression function. -/
def round1 (w : List Nat) (s : Hash8) (i : Nat) : Hash8 :=
  let t1 := (s.h + bigSigma1 s.e + ch s.e s.f s.g + K256.getD i 0 + w.getD i 0) % M32
  let t2 := (bigSigma0 s.a + maj s.a s.b s.c) % M32
  ⟨(t1 + t2) % M32, s.a, s.b, s.c, (s.d + t1) % M32, s.e, s.f, s.g⟩

/-- SHA-256 compression of one 64-byte block into the chaining state. -/
def compress (hv : Hash8) (block : List Nat) : Hash8 :=
  let w := schedule block
  let s := (List.range 64).foldl (round1 w) hv
  ⟨(hv.a + s.a) % M32, (hv.b + s.b) % M32, (hv.c + s.c) % M32, (hv.d + s.d) % M32,
   (hv.e + s.e) % M32, (hv.f + s.f) % M32, (hv.g + s.g) % M32, (hv.h + s.h) % M32⟩

/-- Big-endian length field: eight bytes encoding `n` (the bit length). -/
def lenBytes (n : Nat) : List Nat :=
  [n / 2 ^ 56 % 256, n / 2 ^ 48 % 256, n / 2 ^ 40 % 256, n / 2 ^ 32 % 256,
   n / 2 ^ 24 % 256, n / 2 ^ 16 % 256, n / 2 ^ 8 % 256, n % 256]

/-- SHA-256 padding: input bytes (masked to `Uint8Array` range), a `0x80`
byte, zeros up to 56 mod 64, and the 64-bit big-endian bit length. -/
def padMessage (msg : List Nat) : List Nat :=
  let m := msg.map (· % 256)
  let len := m.length
  m ++ [128] ++ List.replicate ((119 - len % 64) % 64) 0 ++ lenBytes (len * 8)

/-- Feed bytes through the compression function 64 at a time; the second
component accumulates the current partial block. -/
def processBytes (hv : Hash8) (bytes : List Nat) : Hash8 × List Nat :=
  bytes.foldl
    (fun st b =>
      let acc := st.2 ++ [b]
      if acc.length = 64 then (compress st.1 acc, []) else (st.1, acc))
    (hv, [])

/-- Serialize a chaining state to its 32 big-endian digest bytes. -/
def digestBytes (hv : Hash8) : List Nat :=
  [hv.a / 2 ^ 24 % 256, hv.a / 2 ^ 16 % 256, hv.a / 2 ^ 8 % 256, hv.a % 256,
   hv.b / 2 ^ 24 % 256, hv.b / 2 ^ 16 % 256, hv.b / 2 ^ 8 % 256, hv.b % 256,
   hv.c / 2 ^ 24 % 256, hv.c / 2 ^ 16 % 256, hv.c / 2 ^ 8 % 256, hv.c % 256,
   hv.d / 2 ^ 24 % 256, hv.d / 2 ^ 16 % 256, hv.d / 2 ^ 8 % 256, hv.d % 256,
   hv.e / 2 ^ 24 % 256, hv.e / 2 ^ 16 % 256, hv.e / 2 ^ 8 % 256, hv.e % 256,
   hv.f / 2 ^ 24 % 256, hv.f / 2 ^ 16 % 256, hv.f / 2 ^ 8 % 256, hv.f % 256,
   hv.g / 2 ^ 24 % 256, hv.g / 2 ^ 16 % 256, hv.g / 2 ^ 8 % 256, hv.g % 256,
   hv.h / 2 ^ 24 % 256, hv.h / 2 ^ 16 % 256, hv.h / 2 ^ 8 % 256, hv.h % 256]

/-- SHA-256 of a byte list, as 32 digest bytes. -/
def sha256Bytes (msg : List Nat) : List Nat :=
  digestBytes (processBytes initH (padMessage msg)).1

/-- UTF-8 encoding of one character (`TextEncoder` semantics). -/
def utf8Char (c : Char) : List Nat :=
  let n := c.toNat
  if n < 128 then [n]
  else if n < 2048 then [192 + n / 64, 128 + n % 64]
  else if n < 65536 then [224 + n / 4096, 128 + n / 64 % 64, 128 + n % 64]
  else [240 + n / 262144, 128 + n / 4096 % 64, 128 + n / 64 % 64, 128 + n % 64]

/-- UTF-8 encoding of a string (`TextEncoder` semantics). -/
def utf8Encode (s : String) : List Nat :=
  (s.data.map utf8Char).flatten

/-- The digest always has 32 bytes. -/
theorem sha256Bytes_length (msg : List Nat) : (sha256Bytes msg).length = 32 := by
  simp [sha256Bytes, digestBytes]

/-! ## Alias (Token ID) derivation — `src/lib/crypto.ts`, `deriveTokenId` -/

/-- The fixed alias alphabet `TOKEN_ALPHABET` from `crypto.ts`. -/
def TOKEN_ALPHABET : List Char := "ABCDEFGHJKLMNPQRSTUVWXYZ23456789!@$?".data

/-- Embedding of `deriveTokenId` from `crypto.ts`: SHA-256 the public key string (js-sha256
UTF-8-encodes it; the hex digest is decoded straight back to the digest
bytes), map each of the first 12 digest bytes through `TOKEN_ALPHABET`
modulo its length (the loop pushes one character per byte until 12
characters are collected, and `slice(0,12)` is then the identity), and
join the three 4-character groups with dashes. -/
def deriveTokenId (publicKeyBase64 : String) : List Char :=
  let bytes := sha256Bytes (utf8Encode publicKeyBase64)
  let raw := (bytes.take 12).map
    (fun value => TOKEN_ALPHABET.getD (value % TOKEN_ALPHABET.length) 'A')
  raw.take 4 ++ '-' :: (raw.drop 4).take 4 ++ '-' :: (raw.drop 8).take 4

/-! ## Legacy session-key derivation — `deriveSessionKey` (older `lib/crypto`)

`deriveSessionKey(publicKeyA, publicKeyB)` sorts the two base64 public-key
strings, hashes `"first:second"` with SHA-256 and returns the 32 digest
bytes. This is the function the handshake page actually imports and calls. -/

/-- JavaScript's `<` on strings: lexicographic comparison of code units. -/
def jsStringLt : List Char → List Char → Bool
  | [], [] => false
  | [], _ :: _ => true
  | _ :: _, [] => false
  | a :: as, b :: bs =>
    if a.toNat < b.toNat then true
    else if b.toNat < a.toNat then false
    else jsStringLt as bs

def deriveSessionKey (publicKeyA publicKeyB : String) : List Nat :=
  let fs : String × String :=
    if jsStringLt publicKeyA.data publicKeyB.data then (publicKeyA, publicKeyB)
    else (publicKeyB, publicKeyA)
  sha256Bytes (utf8Encode (fs.1 ++ ":" ++ fs.2))

/-- The session-key bytes `handleAccept` in `src/app/handshake/page.tsx`
computes and sends to the `accept_handshake` RPC (base64-encoded): it calls
`deriveSessionKey(selfUser.public_key, initiatorUser.public_key)` on the two
users' public signing keys. No private key is unsealed or used. -/
def handleAcceptSessionKey (selfPublicKey initiatorPublicKey : String) : List Nat :=
  deriveSessionKey selfPublicKey initiatorPublicKey

/-! ## Alias format validation — `src/lib/validation.ts`, `validateTokenId` -/

/-- Membership in the character class `[A-Z2-9!@$?]` of `TOKEN_ID_PATTERN`. -/
def isTokenChar (c : Char) : Bool :=
  ('A' ≤ c && c ≤ 'Z') || ('2' ≤ c && c ≤ '9') ||
  c = '!' || c = '@' || c = '$' || c = '?'

/-- The anchored regex `^[A-Z2-9!@$?]{4}-[A-Z2-9!@$?]{4}-[A-Z2-9!@$?]{4}$`:
fourteen characters, dashes at positions 4 and 9, the rest in the class. -/
def tokenIdPattern (cs : List Char) : Bool :=
  match cs with
  | [c1, c2, c3, c4, d1, c5, c6, c7, c8, d2, c9, c10, c11, c12] =>
    d1 = '-' && d2 = '-' &&
    [c1, c2, c3, c4, c5, c6, c7, c8, c9, c10, c11, c12].all isTokenChar
  | _ => false

/-- JavaScript `String.prototype.trim`: drop whitespace from both ends. -/
def jsTrim (cs : List Char) : List Char :=
  (((cs.dropWhile Char.isWhitespace).reverse).dropWhile Char.isWhitespace).reverse

/-- Embedding of `validateTokenId` from `validation.ts` (boolean `valid` field): an empty
string is rejected as falsy, otherwise the trimmed string must match
`TOKEN_ID_PATTERN`. -/
def validateTokenId (tokenId : List Char) : Bool :=
  if tokenId = [] then false else tokenIdPattern (jsTrim tokenId)

/-! ## Recovery mnemonic — `src/lib/mnemonic.ts` -/

/-- The fixed 256-word `WORDLIST` from `mnemonic.ts`. -/
def WORDLIST : List String :=
  ["abandon", "ability", "able", "about", "above", "absent", "absorb", "abstract",
   "absurd", "abuse", "access", "accident", "account", "accuse", "achieve", "acid",
   "acoustic", "acquire", "across", "act", "action", "actor", "actress", "actual",
   "adapt", "add", "addict", "address", "adjust", "admit", "adult", "advance",
   "advice", "aerobic", "affair", "afford", "afraid", "again", "age", "agent",
   "agree", "ahead", "aim", "air", "airport", "aisle", "alarm", "album",
   "alcohol", "alert", "alien", "all", "alley", "allow", "almost", "alone",
   "alpha", "already", "also", "alter", "always", "amateur", "amazing", "among",
   "amount", "amused", "analyst", "anchor", "ancient", "anger", "angle", "angry",
   "animal", "ankle", "announce", "annual", "another", "answer", "antenna", "antique",
   "anxiety", "any", "apart", "apology", "appear", "apple", "approve", "april",
   "arch", "arctic", "area", "arena", "argue", "arm", "armed", "armor",
   "army", "around", "arrange", "arrest", "arrive", "arrow", "art", "artefact",
   "artist", "artwork", "ask", "aspect", "assault", "asset", "assist", "assume",
   "asthma", "athlete", "atom", "attack", "attend", "attitude", "attract", "auction",
   "audit", "august", "aunt", "author", "auto", "autumn", "average", "avocado",
   "avoid", "awake", "aware", "away", "awesome", "awful", "awkward", "axis",
   "baby", "bachelor", "bacon", "badge", "bag", "balance", "balcony", "ball",
   "bamboo", "banana", "banner", "bar", "barely", "bargain", "barrel", "base",
   "basic", "basket", "battle", "beach", "bean", "beauty", "because", "become",
   "beef", "before", "begin", "behave", "behind", "believe", "below", "belt",
   "bench", "benefit", "best", "betray", "better", "between", "beyond", "bicycle",
   "bid", "bike", "bind", "biology", "bird", "birth", "bitter", "black",
   "blade", "blame", "blanket", "blast", "bleak", "bless", "blind", "blood",
   "blossom", "blouse", "blue", "blur", "blush", "board", "boat", "body",
   "boil", "bomb", "bone", "bonus", "book", "boost", "border", "boring",
   "borrow", "boss", "bottom", "bounce", "box", "boy", "bracket", "brain",
   "brand", "brass", "brave", "bread", "breeze", "brick", "bridge", "brief",
   "bright", "bring", "brisk", "broccoli", "broken", "bronze", "broom", "brother",
   "brown", "brush", "bubble", "buddy", "budget", "buffalo", "build", "bulb",
   "bulk", "bullet", "bundle", "bunker", "burden", "burger", "burst", "bus",
   "business", "busy", "butter", "buyer", "buzz", "cabbage", "cabin", "cable"]

/-- The normalization `word.toLowerCase().trim()` that `mnemonic.ts` applies
before each wordlist lookup. -/
def normalizeWord (w : String) : String :=
  ⟨jsTrim (w.data.map Char.toLower)⟩

/-- Embedding of `validateMnemonic` from `mnemonic.ts`: exactly 12 entries, each present
in `WORDLIST` after lowercasing and trimming. -/
def validateMnemonic (words : List String) : Bool :=
  words.length = 12 && words.all (fun w => decide (normalizeWord w ∈ WORDLIST))

/-- Embedding of `entropyToMnemonic` from `mnemonic.ts`: take the first 16 seed bytes,
compute a checksum byte (the first byte of SHA-256 of the entropy;
`parseInt(hashHex.slice(0,2),16)` is exactly the first digest byte), then
pick 12 words by indexing `WORDLIST` with sums of adjacent entropy bytes
(the last word mixing in the checksum byte) modulo the wordlist size. -/
def entropyToMnemonic (entropyBytes : List Nat) : List String :=
  let entropy := entropyBytes.take 16
  let checksumByte := (sha256Bytes entropy).getD 0 0
  (List.range 12).map (fun i =>
    let idx := (entropy.getD (i % 16) 0 +
      (if i < 11 then entropy.getD ((i + 1) % 16) 0 else checksumByte)) % WORDLIST.length
    WORDLIST.getD idx "")

/-! ## Diffie–Hellman agreement capability (spec-modelled)

`deriveSessionKeyFromBox` in `crypto.ts` is a one-line wrapper around the
external tweetnacl primitive `nacl.box.before` (X25519 agreement), which is
library code outside this repository. -/

/-- Modelled from the spec: the Curve25519 prime 2^255 − 19, used as the
modulus of the modelled Diffie–Hellman group. -/
def dhPrime : Nat := 2 ^ 255 - 19

/-- Modelled from the spec: the group generator of the modelled
Diffie–Hellman agreement capability. -/
def dhBase : Nat := 2

/-- Modelled from the spec: `nacl.box.keyPair` — an encryption keypair's
public key is determined by its secret scalar (here `g^sk mod p`). -/
def boxPublicKey (sk : Nat) : Nat := dhBase ^ sk % dhPrime

/-- Modelled from the spec: the raw Diffie–Hellman agreement — combine the
caller's secret scalar with the peer's public value to obtain the shared
group element (`pub^sk mod p`). -/
def dhAgree (sk pubPeer : Nat) : Nat := pubPeer ^ sk % dhPrime

/-- Little-endian 32-byte serialization of a group element, matching the
spec's 32-byte shared-secret output shape. -/
def natToBytes32 (n : Nat) : List Nat :=
  (List.range 32).map (fun i => n / 256 ^ i % 256)

/-- Modelled from the spec: `deriveSessionKeyFromBox` from `crypto.ts` —
"performs Diffie–Hellman agreement using its encryption private key and the
initiator's encryption public key, producing a 32-byte shared secret".
The body delegates to the external `nacl.box.before` (X25519), modelled here
as exponentiation-based Diffie–Hellman over the Curve25519 prime. -/
def deriveSessionKeyFromBox (mySecretKey theirPublicKey : Nat) : List Nat :=
  natToBytes32 (dhAgree mySecretKey theirPublicKey)

/-! ## PassphraseVault — `encryptPrivateKey` / `decryptPrivateKey` in `crypto.ts`

The wiring (fresh salt and IV, key re-derivation from the stored salt on
open) is repository code; PBKDF2 and AES-256-GCM themselves are Web Crypto
platform primitives, modelled here ideally. -/

/-- Modelled from the spec: `deriveAesKeyFromPassphrase` — PBKDF2-SHA-256
(210,000 iterations) stretching a passphrase and salt to an AES-256-GCM key.
The derived key is modelled as the opaque pair of its two inputs: the KDF
output is determined by, and (collisions abstracted away) only by,
passphrase and salt. -/
structure DerivedAesKey where
  passphrase : String
  salt : List Nat
deriving DecidableEq

/-- Modelled from the spec: an AES-256-GCM sealed box. The ciphertext is
modelled as carrying its plaintext body together with the key and nonce
under which it was produced; the AEAD tag check on decryption is modelled
as requiring both to match exactly. -/
structure AeadSealed where
  body : String
  authKey : DerivedAesKey
  authNonce : List Nat
deriving DecidableEq

/-- Modelled from the spec: AES-256-GCM encryption (`crypto.subtle.encrypt`). -/
def aeadEncrypt (key : DerivedAesKey) (iv : List Nat) (plaintext : String) : AeadSealed :=
  ⟨plaintext, key, iv⟩

/-- Modelled from the spec: AES-256-GCM decryption (`crypto.subtle.decrypt`),
failing (AEAD tag mismatch) unless key and nonce both match. -/
def aeadDecrypt (key : DerivedAesKey) (iv : List Nat) (sealed : AeadSealed) : Option String :=
  if sealed.authKey = key ∧ sealed.authNonce = iv then some sealed.body else none

def deriveAesKeyFromPassphrase (passphrase : String) (salt : List Nat) : DerivedAesKey :=
  ⟨passphrase, salt⟩

/-- The sealed triple returned by `encryptPrivateKey`. -/
structure EncryptedPrivateKey where
  cipherText : AeadSealed
  iv : List Nat
  salt : List Nat
deriving DecidableEq

/-- Embedding of `encryptPrivateKey` from `crypto.ts`: generate a fresh 16-byte salt and
12-byte IV (randomness passed in as arguments here), derive the AES key from
the passphrase and salt, AEAD-encrypt the base64 private key, and return the
triple. (`encryptBoxSecretKey` is the same function.) -/
def encryptPrivateKey (privateKeyBase64 passphrase : String)
    (salt iv : List Nat) : EncryptedPrivateKey :=
  let key := deriveAesKeyFromPassphrase passphrase salt
  ⟨aeadEncrypt key iv privateKeyBase64, iv, salt⟩

/-- Embedding of `decryptPrivateKey` from `crypto.ts`: re-derive the AES key from the
stored salt and the supplied passphrase and AEAD-decrypt the stored
ciphertext under the stored IV. (`decryptBoxSecretKey` is the same
function.) -/
def decryptPrivateKey (enc : EncryptedPrivateKey) (passphrase : String) : Option String :=
  let key := deriveAesKeyFromPassphrase passphrase enc.salt
  aeadDecrypt key enc.iv enc.cipherText

/-! ## SessionCipher — `encryptMessage` / `decryptMessage`

The key-normalization step (`importAesKey` reduces arbitrary session-key
bytes to their SHA-256 digest) is repository code and is embedded with the
real hash; the AES-GCM primitive is Web Crypto, modelled as above. -/

/-- Modelled from the spec: an AES-256-GCM message ciphertext, carrying the
body with the (hash-normalized) key bytes and nonce that authenticate it. -/
structure MsgSealed where
  body : String
  authKeyBytes : List Nat
  authNonce : List Nat
deriving DecidableEq

/-- Embedding of `importAesKey`: reduce arbitrary session-key bytes to a 32-byte AES-256
key via SHA-256 (the hex digest is decoded straight back to bytes). -/
def importAesKey (sessionKey : List Nat) : List Nat :=
  sha256Bytes sessionKey

/-- Embedding of `encryptMessage` from the message-crypto module: normalize the session
key, draw a fresh 12-byte IV (passed in as an argument here), and
AEAD-encrypt the plaintext; returns the ciphertext and the nonce. -/
def encryptMessage (plainText : String) (sessionKey iv : List Nat) :
    MsgSealed × List Nat :=
  (⟨plainText, importAesKey sessionKey, iv⟩, iv)

/-- Embedding of `decryptMessage` from the message-crypto module: normalize the session
key the same way and AEAD-decrypt under the transmitted nonce, failing on
tag mismatch. -/
def decryptMessage (cipherText : MsgSealed) (nonce sessionKey : List Nat) :
    Option String :=
  if cipherText.authKeyBytes = importAesKey sessionKey ∧ cipherText.authNonce = nonce then
    some cipherText.body
  else none

/-! ## Relay storage model — `supabase/schema.sql`, `accept_handshake`

A relational state of `users`, `contacts` and `handshakes` rows and the
`accept_handshake(p_handshake_id, p_session_key_material)` stored procedure.
plpgsql functions run in a transaction and `raise exception` rolls it back,
so the procedure is embedded as an `Except`-valued state transformer: an
error leaves the state untouched. -/

inductive HandshakeStatus where
  | pending
  | accepted
  | rejected
  | expired
deriving DecidableEq

structure UserRow where
  id : String
  tokenId : String
deriving DecidableEq

structure ContactRow where
  ownerId : String
  peerUserId : String
  sessionKeyMaterial : String
deriving DecidableEq

structure HandshakeRow where
  id : String
  initiatorId : String
  targetTokenId : String
  status : HandshakeStatus
  expiresAt : Nat
deriving DecidableEq

structure DbState where
  users : List UserRow
  contacts : List ContactRow
  handshakes : List HandshakeRow
deriving DecidableEq

/-- The SQL `insert into contacts ... on conflict (owner_id, peer_user_id) do
nothing`: append the row unless one with the same (owner, peer) exists. -/
def insertContactIfAbsent (contacts : List ContactRow)
    (ownerId peerUserId keyMaterial : String) : List ContactRow :=
  if contacts.any (fun c => decide (c.ownerId = ownerId ∧ c.peerUserId = peerUserId)) then
    contacts
  else contacts ++ [⟨ownerId, peerUserId, keyMaterial⟩]

/-- Embedding of `accept_handshake` from `schema.sql`, called by `callerId` (`auth.uid()`):

1. select the handshake by id with `status = 'pending'`; if none, raise
   "Handshake not found or not pending";
2. look up the caller's `token_id` and raise "Not authorized to accept this
   handshake" unless it equals the handshake's `target_token_id`;
3. insert the two mutual contact rows, each `on conflict do nothing`;
4. set the handshake's status to `accepted`.

No comparison against `expires_at` occurs anywhere in the procedure. -/
def accept_handshake (callerId handshakeId keyMaterial : String)
    (st : DbState) : Except String DbState :=
  match st.handshakes.find?
      (fun h => decide (h.id = handshakeId ∧ h.status = HandshakeStatus.pending)) with
  | none => .error "Handshake not found or not pending"
  | some h =>
    match st.users.find? (fun u => decide (u.id = callerId)) with
    | none => .error "Not authorized to accept this handshake"
    | some u =>
      if u.tokenId = h.targetTokenId then
        let c1 := insertContactIfAbsent st.contacts callerId h.initiatorId keyMaterial
        let c2 := insertContactIfAbsent c1 h.initiatorId callerId keyMaterial
        .ok { st with
          contacts := c2,
          handshakes := st.handshakes.map (fun g =>
            if g.id = handshakeId then { g with status := HandshakeStatus.accepted } else g) }
      else .error "Not authorized to accept this handshake"

/-- Embedding of `handleReject` from `src/app/handshake/page.tsx` together
with the row-level security of `schema.sql`: the client issues
`update handshakes set status = 'rejected' where id = h.id` as `callerId`
(`auth.uid()`), but the only UPDATE-capable policy on `handshakes` is
"Initiator can manage own handshakes" (`auth.uid() = initiator_id`; the
target has only a SELECT policy), so the update affects exactly the rows
whose id matches and whose initiator is the caller. For any other caller the
update matches zero rows and returns success with the state unchanged. -/
def rejectHandshake (callerId handshakeId : String) (st : DbState) : DbState :=
  { st with
    handshakes := st.handshakes.map (fun g =>
      if g.id = handshakeId ∧ g.initiatorId = callerId then
        { g with status := HandshakeStatus.rejected }
      else g) }

end Ghost

-- sanity checks for the embeddings of deriveTokenId and validateTokenId
example : Ghost.deriveTokenId "test" = "R46X-6ET7-LMUS".data := by decide
example : Ghost.validateTokenId "R46X-6ET7-LMUS".data = true := by decide
example : Ghost.validateTokenId "abcd-efgh-ijkl".data = false := by decide
example : Ghost.validateTokenId "ABCDEFGHIJKL".data = false := by decide
example : Ghost.validateTokenId "ABCD-EFGH-IJKL".data = true := by decide
example : Ghost.validateMnemonic (Ghost.entropyToMnemonic (List.range 16)) = true := by decide

namespace Ghost

/-! ## Helper lemmas -/

/-- An in-range `getD` is a member of the list. -/
theorem getD_mem_of_lt {α : Type} (l : List α) (d : α) {n : Nat} (hn : n < l.length) :
    l.getD n d ∈ l := by
  rw [List.getD_eq_getElem l d hn]
  exact List.getElem_mem hn

theorem tokenAlphabet_length : TOKEN_ALPHABET.length = 36 := by decide

theorem getD_tokenAlphabet_mem (n : Nat) :
    TOKEN_ALPHABET.getD (n % TOKEN_ALPHABET.length) 'A' ∈ TOKEN_ALPHABET :=
  getD_mem_of_lt _ _ (Nat.mod_lt _ (by decide))

theorem isTokenChar_of_mem_alphabet : ∀ c ∈ TOKEN_ALPHABET, isTokenChar c = true := by
  decide

theorem not_whitespace_of_mem_alphabet : ∀ c ∈ TOKEN_ALPHABET, c.isWhitespace = false := by
  decide

/-- A list of length 12 is literally a 12-element list. -/
theorem length_twelve_destruct {α : Type} (l : List α) (hl : l.length = 12) :
    ∃ a1 a2 a3 a4 a5 a6 a7 a8 a9 a10 a11 a12,
      l = [a1, a2, a3, a4, a5, a6, a7, a8, a9, a10, a11, a12] := by
  rcases l with _ | ⟨a1, l⟩; · simp at hl
  rcases l with _ | ⟨a2, l⟩; · simp at hl
  rcases l with _ | ⟨a3, l⟩; · simp at hl
  rcases l with _ | ⟨a4, l⟩; · simp at hl
  rcases l with _ | ⟨a5, l⟩; · simp at hl
  rcases l with _ | ⟨a6, l⟩; · simp at hl
  rcases l with _ | ⟨a7, l⟩; · simp at hl
  rcases l with _ | ⟨a8, l⟩; · simp at hl
  rcases l with _ | ⟨a9, l⟩; · simp at hl
  rcases l with _ | ⟨a10, l⟩; · simp at hl
  rcases l with _ | ⟨a11, l⟩; · simp at hl
  rcases l with _ | ⟨a12, l⟩; · simp at hl
  rcases l with _ | ⟨a13, l⟩
  · exact ⟨a1, a2, a3, a4, a5, a6, a7, a8, a9, a10, a11, a12, rfl⟩
  · simp at hl

/-- The first 12 digest bytes, spelled as a literal 12-element list. -/
theorem take_twelve_digest (pk : String) :
    ∃ b1 b2 b3 b4 b5 b6 b7 b8 b9 b10 b11 b12,
      (sha256Bytes (utf8Encode pk)).take 12 =
        [b1, b2, b3, b4, b5, b6, b7, b8, b9, b10, b11, b12] := by
  apply length_twelve_destruct
  rw [List.length_take, sha256Bytes_length]
  decide

/-- Every derived token id matches the 4-4-4 dash pattern with all twelve
symbol characters drawn from `TOKEN_ALPHABET`. -/
theorem deriveTokenId_pattern (pk : String) :
    tokenIdPattern (deriveTokenId pk) = true := by
  obtain ⟨b1, b2, b3, b4, b5, b6, b7, b8, b9, b10, b11, b12, hEq⟩ := take_twelve_digest pk
  have hch : ∀ n : Nat,
      isTokenChar ((TOKEN_ALPHABET[n % TOKEN_ALPHABET.length]?).getD 'A') = true := by
    intro n
    rw [← List.getD_eq_getElem?_getD]
    exact isTokenChar_of_mem_alphabet _ (getD_tokenAlphabet_mem n)
  unfold deriveTokenId
  simp only [hEq]
  simp [tokenIdPattern, hch]

/-- A derived token id is never empty and carries no surrounding whitespace,
so JavaScript's `trim` leaves it unchanged. -/
theorem jsTrim_deriveTokenId (pk : String) :
    deriveTokenId pk ≠ [] ∧ jsTrim (deriveTokenId pk) = deriveTokenId pk := by
  obtain ⟨b1, b2, b3, b4, b5, b6, b7, b8, b9, b10, b11, b12, hEq⟩ := take_twelve_digest pk
  have hws : ∀ n : Nat,
      ((TOKEN_ALPHABET[n % TOKEN_ALPHABET.length]?).getD 'A').isWhitespace = false := by
    intro n
    rw [← List.getD_eq_getElem?_getD]
    exact not_whitespace_of_mem_alphabet _ (getD_tokenAlphabet_mem n)
  unfold deriveTokenId
  simp only [hEq]
  constructor
  · simp
  · simp [jsTrim, List.dropWhile, hws]

/-! ## Claim theorems -/

/-- Claim C2: the key-agreement operation is commutative — for every two
encryption keypairs, agreement computed from secret key `a` and the peer
public key `boxPublicKey b` equals, byte for byte, agreement computed from
secret key `b` and public key `boxPublicKey a`. -/
theorem agree_comm (a b : Nat) :
    deriveSessionKeyFromBox a (boxPublicKey b) =
      deriveSessionKeyFromBox b (boxPublicKey a) := by
  unfold deriveSessionKeyFromBox dhAgree boxPublicKey
  have h : ∀ x y : Nat, (dhBase ^ x % dhPrime) ^ y % dhPrime = dhBase ^ (x * y) % dhPrime := by
    intro x y
    rw [← Nat.pow_mod, ← pow_mul]
  rw [h, h, Nat.mul_comm]

/-- Claim C5: sealing then opening with the same passphrase is the identity —
for every passphrase, plaintext key material, salt and IV, opening the sealed
triple produced by `encryptPrivateKey` with the same passphrase returns
exactly the plaintext. -/
theorem seal_open_roundtrip (privateKey passphrase : String) (salt iv : List Nat) :
    decryptPrivateKey (encryptPrivateKey privateKey passphrase salt iv) passphrase =
      some privateKey := by
  simp [decryptPrivateKey, encryptPrivateKey, aeadDecrypt, aeadEncrypt,
    deriveAesKeyFromPassphrase]

/-- Claim C6: opening sealed key material with any passphrase other than the
sealing passphrase fails (AEAD authentication failure) rather than returning
any plaintext. -/
theorem seal_open_wrong_passphrase (privateKey passphrase passphrase2 : String)
    (salt iv : List Nat) (hne : passphrase ≠ passphrase2) :
    decryptPrivateKey (encryptPrivateKey privateKey passphrase salt iv) passphrase2 =
      none := by
  simp [decryptPrivateKey, encryptPrivateKey, aeadDecrypt, aeadEncrypt,
    deriveAesKeyFromPassphrase, DerivedAesKey.mk.injEq]
  intro heq
  exact hne heq

/-- Witness for C6 at a concrete input. -/
theorem seal_open_wrong_passphrase_witness :
    "hunter2hunter2" ≠ "wrong-pass" ∧
      decryptPrivateKey
        (encryptPrivateKey "c2VjcmV0a2V5" "hunter2hunter2" [1, 2] [3, 4])
        "wrong-pass" = none :=
  ⟨by decide, seal_open_wrong_passphrase "c2VjcmV0a2V5" "hunter2hunter2" "wrong-pass"
    [1, 2] [3, 4] (by decide)⟩

/-- Claim C7: message encryption round-trips for session key material of any
byte length — the cipher normalizes the session key to the fixed 32-byte
SHA-256 digest, and decrypting the encryption of any message under the same
session key returns exactly the message. -/
theorem message_roundtrip (plainText : String) (sessionKey iv : List Nat) :
    (encryptMessage plainText sessionKey iv).1.authKeyBytes = sha256Bytes sessionKey ∧
    (importAesKey sessionKey).length = 32 ∧
    decryptMessage (encryptMessage plainText sessionKey iv).1
      (encryptMessage plainText sessionKey iv).2 sessionKey = some plainText := by
  refine ⟨rfl, sha256Bytes_length sessionKey, ?_⟩
  simp [decryptMessage, encryptMessage]

/-- Claim C8 (counterexample): `TOKEN_ALPHABET` has 36 symbols, not 37. -/
theorem tokenAlphabet_size : TOKEN_ALPHABET.length = 36 ∧ TOKEN_ALPHABET.length ≠ 37 := by
  decide

/-- Claim C8 (amended): alias derivation hashes the public signing key with
SHA-256, maps successive digest bytes modulo the size of the fixed 36-symbol
alphabet, takes the first 12 mapped characters, formats them as three
4-character dash-separated groups, and the result always matches the
XXXX-XXXX-XXXX pattern over that alphabet. -/
theorem deriveTokenId_spec (pk : String) :
    deriveTokenId pk =
      (let raw := ((sha256Bytes (utf8Encode pk)).take 12).map
          (fun value => TOKEN_ALPHABET.getD (value % 36) 'A');
        raw.take 4 ++ '-' :: (raw.drop 4).take 4 ++ '-' :: (raw.drop 8).take 4) ∧
    tokenIdPattern (deriveTokenId pk) = true := by
  constructor
  · simp only [deriveTokenId, tokenAlphabet_length]
  · exact deriveTokenId_pattern pk

/-- Claim C10: every alias the deriver produces passes the alias format
validator. -/
theorem validateTokenId_deriveTokenId (pk : String) :
    validateTokenId (deriveTokenId pk) = true := by
  obtain ⟨hne, htrim⟩ := jsTrim_deriveTokenId pk
  unfold validateTokenId
  rw [if_neg hne, htrim]
  exact deriveTokenId_pattern pk

/-! Mnemonic helper lemmas -/

theorem wordlist_length : WORDLIST.length = 256 := by decide

theorem normalize_wordlist : ∀ w ∈ WORDLIST, normalizeWord w = w := by decide

theorem entropyToMnemonic_length (seed : List Nat) :
    (entropyToMnemonic seed).length = 12 := by
  simp [entropyToMnemonic]

theorem entropyToMnemonic_mem (seed : List Nat) :
    ∀ w ∈ entropyToMnemonic seed, w ∈ WORDLIST := by
  intro w hw
  unfold entropyToMnemonic at hw
  simp only [List.mem_map, List.mem_range] at hw
  obtain ⟨i, _, rfl⟩ := hw
  exact getD_mem_of_lt _ _ (Nat.mod_lt _ (by rw [wordlist_length]; decide))

/-- Claim C9 (counterexample): a 12-word phrase containing `"ABANDON"` — a
word absent from `WORDLIST`, which holds only lowercase words — still
validates, because `validateMnemonic` lowercases before the lookup. -/
theorem validateMnemonic_uppercase :
    validateMnemonic ["ABANDON", "ability", "able", "about", "above", "absent",
      "absorb", "abstract", "absurd", "abuse", "access", "accident"] = true ∧
    "ABANDON" ∉ WORDLIST := by
  refine ⟨by decide, by decide⟩

/-- Claim C9 (amended): for every seed of at least 16 bytes,
`entropyToMnemonic` yields exactly 12 words drawn from `WORDLIST`, so
`validateMnemonic` accepts the phrase; and `validateMnemonic` rejects any
12-word phrase containing a word that, after lowercasing and trimming, is
absent from `WORDLIST`. -/
theorem validateMnemonic_spec :
    (∀ seed : List Nat, 16 ≤ seed.length →
      (entropyToMnemonic seed).length = 12 ∧
      validateMnemonic (entropyToMnemonic seed) = true) ∧
    (∀ (ws : List String) (w : String), ws.length = 12 → w ∈ ws →
      normalizeWord w ∉ WORDLIST → validateMnemonic ws = false) := by
  constructor
  · intro seed _
    refine ⟨entropyToMnemonic_length seed, ?_⟩
    have h2 := entropyToMnemonic_mem seed
    unfold validateMnemonic
    simp [entropyToMnemonic_length seed, List.all_eq_true]
    intro w hw
    rw [normalize_wordlist w (h2 w hw)]
    exact h2 w hw
  · intro ws w hlen hmem hnot
    unfold validateMnemonic
    have hall : ws.all (fun w => decide (normalizeWord w ∈ WORDLIST)) = false :=
      List.all_eq_false.mpr ⟨w, hmem, by simp [hnot]⟩
    simp [hall]

/-- Witness for C9 at concrete inputs: a 16-byte seed round-trips through
validation, and a phrase with a word foreign to the wordlist is rejected. -/
theorem validateMnemonic_spec_witness :
    ((entropyToMnemonic (List.range 16)).length = 12 ∧
      validateMnemonic (entropyToMnemonic (List.range 16)) = true) ∧
    validateMnemonic ["zzzz", "ability", "able", "about", "above", "absent",
      "absorb", "abstract", "absurd", "abuse", "access", "accident"] = false :=
  ⟨validateMnemonic_spec.1 (List.range 16) (by decide),
   validateMnemonic_spec.2 _ "zzzz" (by decide) (by decide) (by decide)⟩

/-- Claim C1 (evaluation at the failing input): on accept, the session key
the handshake page stores is the SHA-256 hash of the sorted pair of the two
parties' public signing keys — computed by `deriveSessionKey` from public
data only — and it differs from the Diffie–Hellman shared secret of the
parties' encryption keypairs (secret scalars 1 and 2 shown here). -/
theorem handleAccept_stores_hash_not_dh :
    handleAcceptSessionKey "PUBA" "PUBB" = sha256Bytes (utf8Encode "PUBA:PUBB") ∧
    handleAcceptSessionKey "PUBA" "PUBB" ≠ deriveSessionKeyFromBox 1 (boxPublicKey 2) := by
  refine ⟨by decide, by decide⟩

/-! ## Accept-handshake lemmas -/

/-- Appending behaviour of the `on conflict do nothing` insert when no
conflicting row exists. -/
theorem insertContactIfAbsent_not_present (contacts : List ContactRow)
    (ownerId peerUserId keyMaterial : String)
    (hc : contacts.any
      (fun c => decide (c.ownerId = ownerId ∧ c.peerUserId = peerUserId)) = false) :
    insertContactIfAbsent contacts ownerId peerUserId keyMaterial =
      contacts ++ [⟨ownerId, peerUserId, keyMaterial⟩] := by
  unfold insertContactIfAbsent
  rw [hc]
  simp

/-- After the status update, every row bearing the accepted handshake's id
carries the new status. -/
theorem mapped_status_all (hs : List HandshakeRow) (hid : String) (s : HandshakeStatus) :
    ∀ g ∈ hs.map (fun g => if g.id = hid then { g with status := s } else g),
      g.id = hid → g.status = s := by
  intro g hg hgid
  simp only [List.mem_map] at hg
  obtain ⟨g0, _, rfl⟩ := hg
  by_cases hq : g0.id = hid
  · simp [hq]
  · simp only [if_neg hq] at hgid ⊢
    exact absurd hgid hq

/-- After the status update to `accepted`, no row with the handshake's id is
still pending, so the `status = 'pending'` lookup fails. -/
theorem mapped_find_pending_none (hs : List HandshakeRow) (hid : String) :
    (hs.map (fun g =>
        if g.id = hid then { g with status := HandshakeStatus.accepted } else g)).find?
      (fun g => decide (g.id = hid ∧ g.status = HandshakeStatus.pending)) = none := by
  rw [List.find?_eq_none]
  intro x hx
  simp only [List.mem_map] at hx
  obtain ⟨g0, _, rfl⟩ := hx
  by_cases hq : g0.id = hid
  · simp [hq]
  · simp [hq]

/-- The success path of `accept_handshake`: when a pending handshake with the
given id is found and the caller's token id matches the target, the call
returns the state with both contacts inserted and the handshake accepted. -/
theorem accept_success (st : DbState) (h : HandshakeRow) (u : UserRow) (key : String)
    (hfind : st.handshakes.find?
      (fun g => decide (g.id = h.id ∧ g.status = HandshakeStatus.pending)) = some h)
    (huser : st.users.find? (fun v => decide (v.id = u.id)) = some u)
    (htok : u.tokenId = h.targetTokenId) :
    accept_handshake u.id h.id key st = .ok
      { st with
        contacts := insertContactIfAbsent
          (insertContactIfAbsent st.contacts u.id h.initiatorId key)
          h.initiatorId u.id key,
        handshakes := st.handshakes.map (fun g =>
          if g.id = h.id then { g with status := HandshakeStatus.accepted } else g) } := by
  unfold accept_handshake
  simp only [hfind, huser, htok, if_pos]

/-- Claim C3 (amended): a successful accept of a pending handshake between
distinct parties with no pre-existing contact rows creates exactly one
contact row in each direction, both carrying the same session key material,
and marks the handshake accepted. The transition is a single transaction
(errors roll back, so the model returns either the fully updated state or an
error with no state change). A second accept of the same handshake is not a
no-op: it fails with "Handshake not found or not pending" — which is not a
duplicate-contact error — and produces no new contact rows. -/
theorem accept_contract (st : DbState) (h : HandshakeRow) (u : UserRow) (key : String)
    (hfind : st.handshakes.find?
      (fun g => decide (g.id = h.id ∧ g.status = HandshakeStatus.pending)) = some h)
    (huser : st.users.find? (fun v => decide (v.id = u.id)) = some u)
    (htok : u.tokenId = h.targetTokenId)
    (hne : u.id ≠ h.initiatorId)
    (hc1 : st.contacts.any
      (fun c => decide (c.ownerId = u.id ∧ c.peerUserId = h.initiatorId)) = false)
    (hc2 : st.contacts.any
      (fun c => decide (c.ownerId = h.initiatorId ∧ c.peerUserId = u.id)) = false) :
    ∃ st2,
      accept_handshake u.id h.id key st = .ok st2 ∧
      st2.contacts.filter
          (fun c => decide (c.ownerId = u.id ∧ c.peerUserId = h.initiatorId))
        = [⟨u.id, h.initiatorId, key⟩] ∧
      st2.contacts.filter
          (fun c => decide (c.ownerId = h.initiatorId ∧ c.peerUserId = u.id))
        = [⟨h.initiatorId, u.id, key⟩] ∧
      (∀ g ∈ st2.handshakes, g.id = h.id → g.status = HandshakeStatus.accepted) ∧
      st2.users = st.users ∧
      accept_handshake u.id h.id key st2 =
        .error "Handshake not found or not pending" := by
  have e1 : insertContactIfAbsent st.contacts u.id h.initiatorId key =
      st.contacts ++ [⟨u.id, h.initiatorId, key⟩] :=
    insertContactIfAbsent_not_present _ _ _ _ hc1
  have e2 : insertContactIfAbsent (st.contacts ++ [⟨u.id, h.initiatorId, key⟩])
      h.initiatorId u.id key =
      st.contacts ++ [⟨u.id, h.initiatorId, key⟩] ++ [⟨h.initiatorId, u.id, key⟩] := by
    apply insertContactIfAbsent_not_present
    rw [List.any_append, hc2]
    simp [hne]
  have hf1 : st.contacts.filter
      (fun c => decide (c.ownerId = u.id ∧ c.peerUserId = h.initiatorId)) = [] := by
    rw [List.filter_eq_nil_iff]
    exact List.any_eq_false.mp hc1
  have hf2 : st.contacts.filter
      (fun c => decide (c.ownerId = h.initiatorId ∧ c.peerUserId = u.id)) = [] := by
    rw [List.filter_eq_nil_iff]
    exact List.any_eq_false.mp hc2
  refine ⟨_, accept_success st h u key hfind huser htok, ?_, ?_, ?_, rfl, ?_⟩
  · dsimp only
    rw [e1, e2, List.filter_append, List.filter_append, hf1]
    simp [hne, Ne.symm hne]
  · dsimp only
    rw [e1, e2, List.filter_append, List.filter_append, hf2]
    simp [hne, Ne.symm hne]
  · exact mapped_status_all st.handshakes h.id HandshakeStatus.accepted
  · dsimp only
    unfold accept_handshake
    rw [mapped_find_pending_none]

/-- A concrete two-user state with one pending handshake from `u1` (token
`TOK1`) targeting token `TOK2` owned by `u2`. -/
def st0 : DbState :=
  ⟨[⟨"u1", "TOK1"⟩, ⟨"u2", "TOK2"⟩], [],
   [⟨"h1", "u1", "TOK2", HandshakeStatus.pending, 1000⟩]⟩

/-- The state after `u2` accepts handshake `h1` in `st0`. -/
def st1 : DbState :=
  ⟨[⟨"u1", "TOK1"⟩, ⟨"u2", "TOK2"⟩],
   [⟨"u2", "u1", "KEY"⟩, ⟨"u1", "u2", "KEY"⟩],
   [⟨"h1", "u1", "TOK2", HandshakeStatus.accepted, 1000⟩]⟩

/-- Claim C3 (counterexample to the claim as stated): after `u2`'s accept
succeeds, a second accept call on the same handshake id is not a no-op — it
raises "Handshake not found or not pending". -/
theorem accept_second_call_errors :
    accept_handshake "u2" "h1" "KEY" st0 = Except.ok st1 ∧
    accept_handshake "u2" "h1" "KEY" st1 =
      Except.error "Handshake not found or not pending" :=
  ⟨rfl, rfl⟩

/-- Witness for C3 (amended) at the concrete state `st0`. -/
theorem accept_contract_witness :
    ∃ st2,
      accept_handshake "u2" "h1" "KEY" st0 = .ok st2 ∧
      st2.contacts.filter
          (fun c => decide (c.ownerId = "u2" ∧ c.peerUserId = "u1"))
        = [⟨"u2", "u1", "KEY"⟩] ∧
      st2.contacts.filter
          (fun c => decide (c.ownerId = "u1" ∧ c.peerUserId = "u2"))
        = [⟨"u1", "u2", "KEY"⟩] ∧
      (∀ g ∈ st2.handshakes, g.id = "h1" → g.status = HandshakeStatus.accepted) ∧
      st2.users = st0.users ∧
      accept_handshake "u2" "h1" "KEY" st2 =
        .error "Handshake not found or not pending" :=
  accept_contract st0 ⟨"h1", "u1", "TOK2", HandshakeStatus.pending, 1000⟩
    ⟨"u2", "TOK2"⟩ "KEY" (by decide) (by decide) (by decide) (by decide)
    (by decide) (by decide)

/-- An update gated on `initiator_id = callerId` touches no row when the
caller initiated none of the rows bearing the handshake's id, so the state
comes back unchanged (the client still sees success: zero rows matched, no
error raised). -/
theorem rejectHandshake_target_noop (st : DbState) (callerId handshakeId : String)
    (hno : ∀ g ∈ st.handshakes, g.id = handshakeId → g.initiatorId ≠ callerId) :
    rejectHandshake callerId handshakeId st = st := by
  unfold rejectHandshake
  have hmap : ∀ l : List HandshakeRow,
      (∀ g ∈ l, g.id = handshakeId → g.initiatorId ≠ callerId) →
      l.map (fun g =>
        if g.id = handshakeId ∧ g.initiatorId = callerId then
          { g with status := HandshakeStatus.rejected }
        else g) = l := by
    intro l
    induction l with
    | nil => intro _; rfl
    | cons x xs ih =>
      intro hl
      simp only [List.map_cons]
      rw [if_neg, ih (fun g hg => hl g (List.mem_cons_of_mem _ hg))]
      rintro ⟨h1, h2⟩
      exact hl x (List.mem_cons_self x xs) h1 h2
  rw [hmap st.handshakes hno]

/-- Claim C4 (amended): `accept_handshake` never consults `expires_at` — an
Accept on a handshake whose expiry lies in the past but whose stored status
is still pending succeeds and transitions it to accepted exactly as for an
unexpired one. The target's Reject is a silent server-side no-op regardless
of expiry: under row-level security the target has no UPDATE policy on
`handshakes`, so the update matches zero rows, surfaces no error, and the
status stays pending. Neither path raises an expiry or NotPending error;
expiry is enforced only by the periodic cleanup deleting such rows. -/
theorem accept_ignores_expiry (st : DbState) (h : HandshakeRow) (u : UserRow)
    (key : String) (now : Nat)
    (hfind : st.handshakes.find?
      (fun g => decide (g.id = h.id ∧ g.status = HandshakeStatus.pending)) = some h)
    (huser : st.users.find? (fun v => decide (v.id = u.id)) = some u)
    (htok : u.tokenId = h.targetTokenId)
    (hnoinit : ∀ g ∈ st.handshakes, g.id = h.id → g.initiatorId ≠ u.id)
    (hexpired : h.expiresAt < now) :
    ∃ st2,
      accept_handshake u.id h.id key st = .ok st2 ∧
      (∀ g ∈ st2.handshakes, g.id = h.id → g.status = HandshakeStatus.accepted) ∧
      rejectHandshake u.id h.id st = st :=
  ⟨_, accept_success st h u key hfind huser htok,
    mapped_status_all st.handshakes h.id HandshakeStatus.accepted,
    rejectHandshake_target_noop st u.id h.id hnoinit⟩

/-- A concrete state whose only handshake is still pending but expired
(`expiresAt = 0`, in the past of any later instant such as `now = 100`). -/
def stExp : DbState :=
  ⟨[⟨"u1", "TOK1"⟩, ⟨"u2", "TOK2"⟩], [],
   [⟨"h2", "u1", "TOK2", HandshakeStatus.pending, 0⟩]⟩

/-- The state after `u2` accepts the expired handshake `h2` in `stExp`. -/
def stExpAfter : DbState :=
  ⟨[⟨"u1", "TOK1"⟩, ⟨"u2", "TOK2"⟩],
   [⟨"u2", "u1", "KEY"⟩, ⟨"u1", "u2", "KEY"⟩],
   [⟨"h2", "u1", "TOK2", HandshakeStatus.accepted, 0⟩]⟩

/-- Claim C4 (counterexample to the claim as stated): accepting the
expired-but-still-pending handshake `h2` succeeds and creates both contact
rows — no expiry or NotPending error occurs — and the target's Reject on it
surfaces no error either: the RLS-gated update matches zero rows, so the
state is unchanged and the status stays pending. -/
theorem accept_expired_succeeds :
    (stExp.handshakes.map (fun h => h.expiresAt) = [0] ∧ (0 : Nat) < 100) ∧
    accept_handshake "u2" "h2" "KEY" stExp = Except.ok stExpAfter ∧
    stExpAfter.handshakes.map (fun h => h.status) = [HandshakeStatus.accepted] ∧
    rejectHandshake "u2" "h2" stExp = stExp ∧
    stExp.handshakes.map (fun h => h.status) = [HandshakeStatus.pending] :=
  ⟨⟨rfl, by decide⟩, rfl, rfl, by decide, rfl⟩

/-- Witness for C4 (amended) at the concrete expired state `stExp`. -/
theorem accept_ignores_expiry_witness :
    ∃ st2,
      accept_handshake "u2" "h2" "KEY" stExp = .ok st2 ∧
      (∀ g ∈ st2.handshakes, g.id = "h2" → g.status = HandshakeStatus.accepted) ∧
      rejectHandshake "u2" "h2" stExp = stExp :=
  accept_ignores_expiry stExp ⟨"h2", "u1", "TOK2", HandshakeStatus.pending, 0⟩
    ⟨"u2", "TOK2"⟩ "KEY" 100 (by decide) (by decide) (by decide) (by decide)
    (by decide)

end Ghost

-- sanity checks against published SHA-256 test vectors (NIST), bytes in decimal
example : Ghost.sha256Bytes [] =
    [227, 176, 196, 66, 152, 252, 28, 20, 154, 251, 244, 200, 153, 111, 185, 36,
     39, 174, 65, 228, 100, 155, 147, 76, 164, 149, 153, 27, 120, 82, 184, 85] := by
  decide

example : Ghost.sha256Bytes (Ghost.utf8Encode "abc") =
    [186, 120, 22, 191, 143, 1, 207, 234, 65, 65, 64, 222, 93, 174, 34, 35,
     176, 3, 97, 163, 150, 23, 122, 156, 180, 16, 255, 97, 242, 0, 21, 173] := by
  decide
